import Mathlib

/-!
Verification of the lua-parser repository: a shallow embedding of the
tokenizer (src/tokenizer.rs), the AST (src/ast.rs) and the recursive-descent
parser (src/parser.rs), together with proofs of the specification claims.

Source strings are modelled as `List Char`.  The Rust regex character class
`\d` is modelled as the ASCII digits and `\s` as the ASCII whitespace
characters together with the Unicode whitespace code points matched by the
Rust regex crate; the identifier and operator patterns are ASCII-only in the
source as well.
-/

namespace LuaParser

/-! ## Tokenizer data model (src/tokenizer.rs) -/

/-- Represents a token kind (enum `TokenKind` in src/tokenizer.rs). -/
inductive TokenKind where
  | Keyword (s : List Char)
  | Operator (s : List Char)
  | Identifier (s : List Char)
  | NumberLiteral (s : List Char)
  | BoolLiteral (b : Bool)
  | NilLiteral
  | OpenParen
  | CloseParen
deriving DecidableEq, Repr

/-- A token in the source (struct `Token` in src/tokenizer.rs). -/
structure Token where
  kind : TokenKind
  whitespace : List Char
  line : Nat
  column : Nat
deriving DecidableEq, Repr

/-- An error with information about why tokenization failed
(enum `TokenizeError` in src/tokenizer.rs). -/
inductive TokenizeError where
  | UnknownSequence (remainder : List Char) (line : Nat) (column : Nat)
deriving DecidableEq, Repr

/-- Result of a successful pattern match (struct `TryAdvanceResult`). -/
structure TryAdvanceResult where
  new_source : List Char
  eaten_str : List Char
  matched_kind : TokenKind
deriving DecidableEq, Repr

/-- The fixed reserved-word set (`KEYWORDS` in src/tokenizer.rs). -/
def KEYWORDS : List (List Char) :=
  ["local".data, "function".data, "while".data, "repeat".data, "until".data,
   "for".data, "do".data, "end".data]

/-! ## Character classes of the regular expressions -/

/-- Character class of the regex `\s` (whitespace) as matched by the Rust
regex crate in Unicode mode. -/
def is_whitespace_char (c : Char) : Bool :=
  c = ' ' || c = '\t' || c = '\n' || c = '\x0b' || c = '\x0c' || c = '\r' ||
  c = '\u0085' || c = ' ' || c = ' ' ||
  (' ' ≤ c && c ≤ ' ') || c = ' ' || c = ' ' ||
  c = ' ' || c = ' ' || c = '　'

/-- Character class `[_a-zA-Z]`, the first character of `PATTERN_IDENTIFIER`. -/
def is_ident_start (c : Char) : Bool :=
  c = '_' || ('a' ≤ c && c ≤ 'z') || ('A' ≤ c && c ≤ 'Z')

/-- Character class `\d` (ASCII decimal digits). -/
def is_digit (c : Char) : Bool := '0' ≤ c && c ≤ '9'

/-- Character class `[_a-zA-Z0-9]`, the continuation of `PATTERN_IDENTIFIER`. -/
def is_ident_char (c : Char) : Bool := is_ident_start c || is_digit c

/-- Character class `[A-Fa-f\d]` used by the hexadecimal number alternative. -/
def is_hex_digit (c : Char) : Bool :=
  is_digit c || ('a' ≤ c && c ≤ 'f') || ('A' ≤ c && c ≤ 'F')

/-! ## Anchored pattern matchers

Each matcher models the anchored regex of src/tokenizer.rs: on success it
returns the matched prefix together with the remaining text. -/

/-- Regex `PATTERN_IDENTIFIER = ^([_a-zA-Z][_a-zA-Z0-9]*)`. -/
def pattern_identifier : List Char → Option (List Char × List Char)
  | [] => none
  | c :: cs =>
    if is_ident_start c then
      some (c :: cs.takeWhile is_ident_char, cs.dropWhile is_ident_char)
    else none

/-- The seven single characters of `PATTERN_OPERATOR`. -/
def operator_chars : List Char := ['=', '+', ',', '{', '}', '[', ']']

/-- Regex `PATTERN_OPERATOR`, one of the characters of `operator_chars`. -/
def pattern_operator : List Char → Option (List Char × List Char)
  | [] => none
  | c :: cs => if c ∈ operator_chars then some ([c], cs) else none

/-- The optional leading sign `-?` of `PATTERN_NUMBER_LITERAL` and of its
exponent group: splits off a single leading minus character when present. -/
def eat_minus : List Char → List Char × List Char
  | '-' :: r => (['-'], r)
  | l => ([], l)

/-- The alternative `0x[A-Fa-f\d]+` of `PATTERN_NUMBER_LITERAL`, after the
optional leading sign. -/
def match_hex_tail : List Char → Option (List Char × List Char)
  | '0' :: 'x' :: rest =>
    if rest.takeWhile is_hex_digit = [] then none
    else some ('0' :: 'x' :: rest.takeWhile is_hex_digit,
      rest.dropWhile is_hex_digit)
  | _ => none

/-- The alternative `(?:(?:\d*\.\d+)|(\d+))` of `PATTERN_NUMBER_LITERAL`,
after the optional leading sign: a fractional literal is preferred, else an
integer literal. -/
def match_dec_tail (l : List Char) : Option (List Char × List Char) :=
  match l.dropWhile is_digit with
  | '.' :: r2 =>
    if r2.takeWhile is_digit = [] then
      (if l.takeWhile is_digit = [] then none
       else some (l.takeWhile is_digit, l.dropWhile is_digit))
    else some (l.takeWhile is_digit ++ '.' :: r2.takeWhile is_digit,
      r2.dropWhile is_digit)
  | _ =>
    if l.takeWhile is_digit = [] then none
    else some (l.takeWhile is_digit, l.dropWhile is_digit)

/-- The optional exponent group `(?:[eE]-?\d+)?` of `PATTERN_NUMBER_LITERAL`;
returns the consumed characters (possibly none) and the remaining text. -/
def match_exponent (l : List Char) : List Char × List Char :=
  match l with
  | [] => ([], [])
  | c :: rest =>
    if c = 'e' || c = 'E' then
      if (eat_minus rest).2.takeWhile is_digit = [] then ([], c :: rest)
      else (c :: (eat_minus rest).1 ++ (eat_minus rest).2.takeWhile is_digit,
        (eat_minus rest).2.dropWhile is_digit)
    else ([], c :: rest)

/-- Regex `PATTERN_NUMBER_LITERAL =
^((-?0x[A-Fa-f\d]+)|(-?(?:(?:\d*\.\d+)|(\d+))(?:[eE]-?\d+)?))`: an optional
leading sign, then the hexadecimal alternative is preferred over the decimal
one, which may carry an exponent suffix. -/
def pattern_number_literal (l : List Char) : Option (List Char × List Char) :=
  match match_hex_tail (eat_minus l).2 with
  | some (m, r) => some ((eat_minus l).1 ++ m, r)
  | none =>
    match match_dec_tail (eat_minus l).2 with
    | some (m, r) =>
      some ((eat_minus l).1 ++ m ++ (match_exponent r).1, (match_exponent r).2)
    | none => none

/-! ## Classification and the priority-ordered match -/

/-- Classification of identifier-pattern text from the closure passed to
`try_advance` in `tokenize`: reserved words, the literals, else `Identifier`. -/
def classify_identifier (s : List Char) : TokenKind :=
  if s ∈ KEYWORDS then .Keyword s
  else if s = "true".data then .BoolLiteral true
  else if s = "false".data then .BoolLiteral false
  else if s = "nil".data then .NilLiteral
  else .Identifier s

/-- The `or_else` chain of `try_advance` calls in `tokenize`: identifier,
operator, number literal, open paren, close paren, in this priority order. -/
def try_advance_any (current : List Char) : Option TryAdvanceResult :=
  match pattern_identifier current with
  | some (m, r) => some ⟨r, m, classify_identifier m⟩
  | none =>
  match pattern_operator current with
  | some (m, r) => some ⟨r, m, .Operator m⟩
  | none =>
  match pattern_number_literal current with
  | some (m, r) => some ⟨r, m, .NumberLiteral m⟩
  | none =>
  match current with
  | '(' :: r => some ⟨r, ['('], .OpenParen⟩
  | ')' :: r => some ⟨r, [')'], .CloseParen⟩
  | _ => none

/-! ## Position tracking -/

/-- Number of newline characters of a consumed string
(`eaten_str.matches("\n").count()`). -/
def count_newlines (l : List Char) : Nat := l.count '\n'

/-- The characters after the last newline, the capture of
`PATTERN_CHARS_AFTER_NEWLINE = \n([^\n]+)$` (empty when the regex does not
match). -/
def chars_after_last_newline (l : List Char) : List Char :=
  (l.reverse.takeWhile (fun c => c != '\n')).reverse

/-- Position update `get_new_position` of src/tokenizer.rs: the new line is
the old line plus the newlines eaten; the column is restarted after a newline
and otherwise advanced by the eaten length. -/
def get_new_position (eaten_str : List Char) (current_line current_column : Nat) :
    Nat × Nat :=
  let lines_eaten := count_newlines eaten_str
  let column :=
    if 0 < lines_eaten then (chars_after_last_newline eaten_str).length + 1
    else current_column + eaten_str.length
  (current_line + lines_eaten, column)

/-! ## Splitting lemmas for the pattern matchers

These record that every successful match splits its input into the eaten
prefix and the remaining text, with a nonempty prefix; they drive both the
termination of the tokenizer loop and the reconstruction property. -/

theorem eat_minus_split (l : List Char) :
    (eat_minus l).1 ++ (eat_minus l).2 = l := by
  rw [eat_minus.eq_def]
  split <;> simp

theorem pattern_identifier_split {l m r : List Char}
    (h : pattern_identifier l = some (m, r)) : m ++ r = l ∧ m ≠ [] := by
  rw [pattern_identifier.eq_def] at h
  split at h
  · exact absurd h (by simp)
  · split at h
    · obtain ⟨hm, hr⟩ := Prod.mk.injEq .. ▸ Option.some.injEq .. ▸ h
      subst hm hr
      simp
    · exact absurd h (by simp)

theorem pattern_operator_split {l m r : List Char}
    (h : pattern_operator l = some (m, r)) : m ++ r = l ∧ m ≠ [] := by
  rw [pattern_operator.eq_def] at h
  split at h
  · exact absurd h (by simp)
  · split at h
    · obtain ⟨hm, hr⟩ := Prod.mk.injEq .. ▸ Option.some.injEq .. ▸ h
      subst hm hr
      simp
    · exact absurd h (by simp)

theorem match_hex_tail_split {l m r : List Char}
    (h : match_hex_tail l = some (m, r)) : m ++ r = l ∧ m ≠ [] := by
  rw [match_hex_tail.eq_def] at h
  split at h
  · split at h
    · exact absurd h (by simp)
    · obtain ⟨hm, hr⟩ := Prod.mk.injEq .. ▸ Option.some.injEq .. ▸ h
      subst hm hr
      simp
  · exact absurd h (by simp)

theorem match_dec_tail_split {l m r : List Char}
    (h : match_dec_tail l = some (m, r)) : m ++ r = l ∧ m ≠ [] := by
  rw [match_dec_tail.eq_def] at h
  split at h
  case _ r2 heq =>
    split at h
    · split at h
      · exact absurd h (by simp)
      · obtain ⟨hm, hr⟩ := Prod.mk.injEq .. ▸ Option.some.injEq .. ▸ h
        subst hm hr
        refine ⟨List.takeWhile_append_dropWhile .., by assumption⟩
    · obtain ⟨hm, hr⟩ := Prod.mk.injEq .. ▸ Option.some.injEq .. ▸ h
      subst hm hr
      constructor
      · rw [List.append_assoc, List.cons_append, List.takeWhile_append_dropWhile]
        conv_rhs => rw [← List.takeWhile_append_dropWhile (p := is_digit) (l := l)]
        rw [heq]
      · simp
  case _ =>
    split at h
    · exact absurd h (by simp)
    · obtain ⟨hm, hr⟩ := Prod.mk.injEq .. ▸ Option.some.injEq .. ▸ h
      subst hm hr
      exact ⟨List.takeWhile_append_dropWhile .., by assumption⟩

theorem match_exponent_split (l : List Char) :
    (match_exponent l).1 ++ (match_exponent l).2 = l := by
  rw [match_exponent.eq_def]
  split
  · simp
  case _ c rest =>
    split
    · split
      · simp
      · simp [List.append_assoc, eat_minus_split]
    · simp

theorem pattern_number_literal_split {l m r : List Char}
    (h : pattern_number_literal l = some (m, r)) : m ++ r = l ∧ m ≠ [] := by
  rw [pattern_number_literal.eq_def] at h
  split at h
  case _ mh rh hhex =>
    obtain ⟨hm, hr⟩ := Prod.mk.injEq .. ▸ Option.some.injEq .. ▸ h
    subst hm hr
    obtain ⟨hsplit, hne⟩ := match_hex_tail_split hhex
    constructor
    · rw [List.append_assoc, hsplit, eat_minus_split]
    · intro hcon
      exact hne (List.append_eq_nil.mp hcon).2
  case _ =>
    split at h
    case _ md rd hdec =>
      obtain ⟨hm, hr⟩ := Prod.mk.injEq .. ▸ Option.some.injEq .. ▸ h
      subst hm hr
      obtain ⟨hsplit, hne⟩ := match_dec_tail_split hdec
      constructor
      · rw [List.append_assoc, List.append_assoc, match_exponent_split, hsplit,
          eat_minus_split]
      · intro hcon
        have h1 := (List.append_eq_nil.mp hcon).1
        exact hne (List.append_eq_nil.mp h1).2
    case _ =>
      exact absurd h (by simp)

theorem try_advance_any_split {l : List Char} {res : TryAdvanceResult}
    (h : try_advance_any l = some res) :
    res.eaten_str ++ res.new_source = l ∧ res.eaten_str ≠ [] := by
  rw [try_advance_any.eq_def] at h
  split at h
  case _ m r hpat =>
    obtain rfl := Option.some.injEq .. ▸ h
    exact pattern_identifier_split hpat
  case _ =>
    split at h
    case _ m r hpat =>
      obtain rfl := Option.some.injEq .. ▸ h
      exact pattern_operator_split hpat
    case _ =>
      split at h
      case _ m r hpat =>
        obtain rfl := Option.some.injEq .. ▸ h
        exact pattern_number_literal_split hpat
      case _ =>
        split at h
        · obtain rfl := Option.some.injEq .. ▸ h
          simp
        · obtain rfl := Option.some.injEq .. ▸ h
          simp
        · exact absurd h (by simp)

/-! ## The tokenizer loop (`tokenize` in src/tokenizer.rs)

Each iteration eats leading whitespace, advances the position, matches a
token at the current text, records the token with the position reached after
the whitespace, and advances the position past the matched text.  When no
pattern matches, the loop stops: success iff nothing is left. -/

/-- Position reached after eating the leading whitespace of `current`,
starting from the given position (the first `get_new_position` call of each
loop iteration in `tokenize`). -/
def pos_after_whitespace (current : List Char) (current_line current_column : Nat) :
    Nat × Nat :=
  get_new_position (current.takeWhile is_whitespace_char)
    current_line current_column

/-- The `loop` of `tokenize` in src/tokenizer.rs.  The recursion is driven by
a fuel counter whose only purpose is to make the recursion structural: every
iteration consumes at least one character (`try_advance_any_split`), so any
fuel exceeding the input length produces the loop's result
(`tokenize_loop_fuel_irrel`) and the fuel-exhaustion branch is unreachable
from `tokenize`. -/
def tokenize_loop : Nat → List Char → Nat → Nat → Except TokenizeError (List Token)
  | 0, current, current_line, current_column =>
    .error (.UnknownSequence current current_line current_column)
  | fuel + 1, current, current_line, current_column =>
    match try_advance_any (current.dropWhile is_whitespace_char) with
    | some result =>
      match tokenize_loop fuel result.new_source
          (get_new_position result.eaten_str
            (pos_after_whitespace current current_line current_column).1
            (pos_after_whitespace current current_line current_column).2).1
          (get_new_position result.eaten_str
            (pos_after_whitespace current current_line current_column).1
            (pos_after_whitespace current current_line current_column).2).2 with
      | .ok toks =>
        .ok (⟨result.matched_kind, current.takeWhile is_whitespace_char,
          (pos_after_whitespace current current_line current_column).1,
          (pos_after_whitespace current current_line current_column).2⟩ :: toks)
      | .error e => .error e
    | none =>
      if current.dropWhile is_whitespace_char = [] then .ok []
      else .error (.UnknownSequence (current.dropWhile is_whitespace_char)
        (pos_after_whitespace current current_line current_column).1
        (pos_after_whitespace current current_line current_column).2)

theorem new_source_length_lt {l : List Char} {res : TryAdvanceResult}
    (h : try_advance_any (l.dropWhile is_whitespace_char) = some res) :
    res.new_source.length < l.length := by
  obtain ⟨hsplit, hne⟩ := try_advance_any_split h
  have h1 : res.new_source.length < (l.dropWhile is_whitespace_char).length := by
    rw [← hsplit, List.length_append]
    have := List.length_pos.mpr hne
    omega
  have h2 : (l.dropWhile is_whitespace_char).length ≤ l.length :=
    (List.dropWhile_sublist (l := l) (p := is_whitespace_char)).length_le
  omega

theorem tokenize_loop_fuel_irrel (fuel1 : Nat) :
    ∀ (fuel2 : Nat) (current : List Char) (line col : Nat),
      current.length < fuel1 → current.length < fuel2 →
      tokenize_loop fuel1 current line col = tokenize_loop fuel2 current line col := by
  induction fuel1 with
  | zero => intro fuel2 current line col h1 _; omega
  | succ fuel1 ih =>
    intro fuel2 current line col h1 h2
    match fuel2 with
    | 0 => omega
    | fuel2 + 1 =>
      rw [tokenize_loop, tokenize_loop]
      cases hadv : try_advance_any (current.dropWhile is_whitespace_char) with
      | none => rfl
      | some result =>
        have hlt := new_source_length_lt hadv
        dsimp only
        rw [ih fuel2 result.new_source _ _ (by omega) (by omega)]

/-- Entry point `tokenize` of src/tokenizer.rs: tokenizes a source string
completely, starting at line 1 and column 1. -/
def tokenize (source : List Char) : Except TokenizeError (List Token) :=
  tokenize_loop (source.length + 1) source 1 1

/-! ## The source text a token stands for -/

/-- The exact source text a token kind was matched from.  The text-carrying
kinds store it directly; the classification in `tokenize` produces
`BoolLiteral`/`NilLiteral` exactly for the literal words, and the two paren
kinds exactly for the two paren characters. -/
def token_text : TokenKind → List Char
  | .Keyword s => s
  | .Operator s => s
  | .Identifier s => s
  | .NumberLiteral s => s
  | .BoolLiteral true => "true".data
  | .BoolLiteral false => "false".data
  | .NilLiteral => "nil".data
  | .OpenParen => ['(']
  | .CloseParen => [')']

theorem token_text_classify (s : List Char) :
    token_text (classify_identifier s) = s := by
  rw [classify_identifier]
  split_ifs with h1 h2 h3 h4 <;> simp [token_text, *]

theorem try_advance_any_text {l : List Char} {res : TryAdvanceResult}
    (h : try_advance_any l = some res) :
    token_text res.matched_kind = res.eaten_str := by
  rw [try_advance_any.eq_def] at h
  split at h
  case _ m r hpat =>
    obtain rfl := Option.some.injEq .. ▸ h
    exact token_text_classify m
  case _ =>
    split at h
    case _ m r hpat =>
      obtain rfl := Option.some.injEq .. ▸ h
      rfl
    case _ =>
      split at h
      case _ m r hpat =>
        obtain rfl := Option.some.injEq .. ▸ h
        rfl
      case _ =>
        split at h
        · obtain rfl := Option.some.injEq .. ▸ h
          rfl
        · obtain rfl := Option.some.injEq .. ▸ h
          rfl
        · exact absurd h (by simp)

/-- The source text a token accounts for: its leading whitespace followed by
its matched text. -/
def token_source (t : Token) : List Char := t.whitespace ++ token_text t.kind

/-! ## Behavioural lemmas about the tokenizer loop -/

theorem tokenize_loop_reconstruct (fuel : Nat) :
    ∀ (current : List Char) (line col : Nat) (toks : List Token),
      tokenize_loop fuel current line col = .ok toks →
      ∃ trailing, trailing.all is_whitespace_char = true ∧
        (toks.map token_source).flatten ++ trailing = current := by
  induction fuel with
  | zero =>
    intro current line col toks h
    rw [tokenize_loop] at h
    exact absurd h (by simp)
  | succ fuel ih =>
    intro current line col toks h
    rw [tokenize_loop] at h
    split at h
    case _ result hadv =>
      split at h
      case _ toks0 hrec =>
        obtain rfl : _ :: toks0 = toks := Except.ok.injEq .. ▸ h
        obtain ⟨trailing, htr, hflat⟩ := ih _ _ _ _ hrec
        refine ⟨trailing, htr, ?_⟩
        obtain ⟨hsplit, -⟩ := try_advance_any_split hadv
        have htext := try_advance_any_text hadv
        simp only [List.map_cons, List.flatten_cons, token_source, htext,
          List.append_assoc]
        rw [hflat, hsplit]
        exact List.takeWhile_append_dropWhile ..
      case _ e hrec =>
        exact absurd h (by simp)
    case _ hadv =>
      split at h
      case _ hrest =>
        obtain rfl : ([] : List Token) = toks := Except.ok.injEq .. ▸ h
        refine ⟨current.takeWhile is_whitespace_char, List.all_takeWhile, ?_⟩
        have hsp : current.takeWhile is_whitespace_char ++
            current.dropWhile is_whitespace_char = current :=
          List.takeWhile_append_dropWhile ..
        rw [hrest, List.append_nil] at hsp
        simpa using hsp
      case _ hrest =>
        exact absurd h (by simp)

/-! ## Position tracking along a token list -/

/-- Position reached after a whole token: first past its leading whitespace,
then past its matched text, with the same `get_new_position` rule. -/
def position_after (pos : Nat × Nat) (t : Token) : Nat × Nat :=
  get_new_position (token_text t.kind)
    (get_new_position t.whitespace pos.1 pos.2).1
    (get_new_position t.whitespace pos.1 pos.2).2

/-- Every token of the list records the position reached from `pos` after
consuming its leading whitespace, successive tokens chaining through
`position_after`. -/
def tokens_pos_ok : Nat × Nat → List Token → Prop
  | _, [] => True
  | pos, t :: ts =>
    (t.line, t.column) = get_new_position t.whitespace pos.1 pos.2 ∧
    tokens_pos_ok (position_after pos t) ts

theorem tokenize_loop_pos (fuel : Nat) :
    ∀ (current : List Char) (line col : Nat) (toks : List Token),
      tokenize_loop fuel current line col = .ok toks →
      tokens_pos_ok (line, col) toks := by
  induction fuel with
  | zero =>
    intro current line col toks h
    rw [tokenize_loop] at h
    exact absurd h (by simp)
  | succ fuel ih =>
    intro current line col toks h
    rw [tokenize_loop] at h
    split at h
    case _ result hadv =>
      split at h
      case _ toks0 hrec =>
        obtain rfl : _ :: toks0 = toks := Except.ok.injEq .. ▸ h
        have hpos := ih _ _ _ _ hrec
        have htext := try_advance_any_text hadv
        simp only [tokens_pos_ok]
        refine ⟨by simp [pos_after_whitespace], ?_⟩
        simpa [position_after, pos_after_whitespace, htext] using hpos
      case _ e hrec =>
        exact absurd h (by simp)
    case _ hadv =>
      split at h
      case _ hrest =>
        obtain rfl : ([] : List Token) = toks := Except.ok.injEq .. ▸ h
        trivial
      case _ hrest =>
        exact absurd h (by simp)

/-! ## The failure case of the tokenizer loop -/

theorem tokenize_loop_error (fuel : Nat) :
    ∀ (current : List Char) (line col : Nat) (rem : List Char) (l c : Nat),
      current.length < fuel →
      tokenize_loop fuel current line col = .error (.UnknownSequence rem l c) →
      rem ≠ [] ∧ try_advance_any rem = none ∧ rem <:+ current := by
  induction fuel with
  | zero =>
    intro current line col rem l c hlen h
    omega
  | succ fuel ih =>
    intro current line col rem l c hlen h
    rw [tokenize_loop] at h
    split at h
    case _ result hadv =>
      split at h
      case _ toks0 hrec =>
        exact absurd h (by simp)
      case _ e hrec =>
        obtain rfl : e = TokenizeError.UnknownSequence rem l c :=
          Except.error.injEq .. ▸ h
        have hlt := new_source_length_lt hadv
        obtain ⟨h1, h2, h3⟩ := ih _ _ _ _ _ _ (by omega) hrec
        refine ⟨h1, h2, h3.trans ?_⟩
        obtain ⟨hsplit, -⟩ := try_advance_any_split hadv
        exact List.IsSuffix.trans ⟨result.eaten_str, hsplit⟩
          (List.dropWhile_suffix _)
    case _ hadv =>
      split at h
      case _ hrest =>
        exact absurd h (by simp)
      case _ hrest =>
        have heq : TokenizeError.UnknownSequence
            (current.dropWhile is_whitespace_char)
            (pos_after_whitespace current line col).1
            (pos_after_whitespace current line col).2 =
            TokenizeError.UnknownSequence rem l c :=
          Except.error.injEq .. ▸ h
        injection heq with e1 e2 e3
        subst e1
        exact ⟨hrest, hadv, List.dropWhile_suffix _⟩

/-- The kinds of a tokenization result, forgetting whitespace and positions. -/
def token_kinds (r : Except TokenizeError (List Token)) :
    Except TokenizeError (List TokenKind) :=
  r.map (List.map Token.kind)

end LuaParser

deriving instance DecidableEq for Except

namespace LuaParser

/-! ## Claims about the tokenizer -/

/-- Claim C2, counterexample: on the input consisting of a single space the
tokenizer succeeds with an empty token list, and the concatenation of the
tokens' leading whitespace and matched text is empty, not the input: the
whitespace eaten after the last token is dropped. -/
theorem c2_roundtrip_counterexample :
    tokenize " ".data = .ok [] ∧
    (List.map token_source ([] : List Token)).flatten ≠ " ".data :=
  ⟨by decide, by decide⟩

/-- Claim C2 (amended): for every input string on which tokenize succeeds,
concatenating, in token order, each token's leading whitespace followed by
the token's matched source text reproduces the original input exactly up to
whitespace consumed after the final token: there is a trailing all-whitespace
string whose appension reconstructs the input (empty whenever the input does
not end in whitespace). -/
theorem c2_roundtrip_amended (source : List Char) (toks : List Token)
    (h : tokenize source = .ok toks) :
    ∃ trailing, trailing.all is_whitespace_char = true ∧
      (toks.map token_source).flatten ++ trailing = source :=
  tokenize_loop_reconstruct _ _ _ _ _ h

theorem c2_roundtrip_amended_witness :
    ∃ trailing, trailing.all is_whitespace_char = true ∧
      (([⟨.Keyword "local".data, [], 1, 1⟩] : List Token).map
        token_source).flatten ++ trailing = "local ".data :=
  c2_roundtrip_amended "local ".data _ (by decide)

/-- Claim C5: every token records the 1-based line and column reached after
consuming its leading whitespace, positions chaining through
`get_new_position`, which adds the number of newlines to the line and either
resets the column to 1 + (length of text after the last newline) when a
newline was consumed or increases it by the consumed length; in particular
the first token of "\n\nfoo" has line 3 and column 1. -/
theorem c5_position_tracking :
    (∀ (eaten : List Char) (line col : Nat),
      get_new_position eaten line col =
        (line + count_newlines eaten,
         if count_newlines eaten = 0 then col + eaten.length
         else 1 + (chars_after_last_newline eaten).length)) ∧
    (∀ (source : List Char) (toks : List Token),
      tokenize source = .ok toks → tokens_pos_ok (1, 1) toks) ∧
    tokenize "\n\nfoo".data =
      .ok [⟨.Identifier "foo".data, "\n\n".data, 3, 1⟩] := by
  refine ⟨?_, ?_, by decide⟩
  · intro eaten line col
    rw [get_new_position]
    rcases Nat.eq_zero_or_pos (count_newlines eaten) with h | h
    · simp [h]
    · simp [h, h.ne', Nat.add_comm]
  · intro source toks h
    exact tokenize_loop_pos _ _ _ _ _ h

theorem c5_position_tracking_witness :
    tokens_pos_ok (1, 1) [⟨.Identifier "foo".data, "\n\n".data, 3, 1⟩] :=
  c5_position_tracking.2.1 "\n\nfoo".data _ (by decide)

/-- Claim C6: text matching the identifier pattern is classified as a
Keyword when it is in the reserved-word set, as a Bool/Nil literal when it is
true/false/nil, and otherwise as an Identifier; "local" gives one Keyword
token, "local1" and "_local" one Identifier token each, and "local _" a
Keyword then an Identifier. -/
theorem c6_identifier_classification :
    (∀ s : List Char, s ∈ KEYWORDS → classify_identifier s = .Keyword s) ∧
    (∀ s : List Char, s ∉ KEYWORDS → s ≠ "true".data → s ≠ "false".data →
      s ≠ "nil".data → classify_identifier s = .Identifier s) ∧
    classify_identifier "true".data = .BoolLiteral true ∧
    classify_identifier "false".data = .BoolLiteral false ∧
    classify_identifier "nil".data = .NilLiteral ∧
    token_kinds (tokenize "local".data) = .ok [.Keyword "local".data] ∧
    token_kinds (tokenize "local1".data) = .ok [.Identifier "local1".data] ∧
    token_kinds (tokenize "_local".data) = .ok [.Identifier "_local".data] ∧
    token_kinds (tokenize "local _".data) =
      .ok [.Keyword "local".data, .Identifier "_".data] := by
  refine ⟨?_, ?_, by decide, by decide, by decide, by decide, by decide,
    by decide, by decide⟩
  · intro s h
    rw [classify_identifier, if_pos h]
  · intro s h1 h2 h3 h4
    rw [classify_identifier, if_neg h1, if_neg h2, if_neg h3, if_neg h4]

theorem c6_identifier_classification_witness :
    classify_identifier "zz".data = .Identifier "zz".data :=
  c6_identifier_classification.2.1 "zz".data (by decide) (by decide)
    (by decide) (by decide)

/-- Claim C7: each of "0x1F", "-12.5e-3" and "7" tokenizes to exactly one
NumberLiteral token whose stored text equals the input string verbatim. -/
theorem c7_number_literals :
    token_kinds (tokenize "0x1F".data) = .ok [.NumberLiteral "0x1F".data] ∧
    token_kinds (tokenize "-12.5e-3".data) =
      .ok [.NumberLiteral "-12.5e-3".data] ∧
    token_kinds (tokenize "7".data) = .ok [.NumberLiteral "7".data] :=
  ⟨by decide, by decide, by decide⟩

/-- Claim C8: whenever tokenize fails it returns a single fatal
UnknownSequence error whose remainder is the entire nonempty unconsumed text,
a suffix of the input at which no pattern matches (so no partial token list
is ever returned); in particular "@" fails with remainder "@" at line 1,
column 1. -/
theorem c8_unknown_sequence :
    (∀ (source rem : List Char) (l c : Nat),
      tokenize source = .error (.UnknownSequence rem l c) →
      rem ≠ [] ∧ try_advance_any rem = none ∧ rem <:+ source) ∧
    tokenize "@".data = .error (.UnknownSequence "@".data 1 1) := by
  refine ⟨?_, by decide⟩
  intro source rem l c h
  exact tokenize_loop_error _ _ _ _ _ _ _ (Nat.lt_succ_self _) h

theorem c8_unknown_sequence_witness :
    "@".data ≠ [] ∧ try_advance_any "@".data = none ∧ "@".data <:+ "@".data :=
  c8_unknown_sequence.1 "@".data "@".data 1 1 (by decide)

/-- Claim C10: the reserved-word set is exactly the eight words local,
function, while, repeat, until, for, do, end; every other identifier-pattern
word except true/false/nil is classified as an Identifier, and in particular
each of "if", "then", "else", "elseif" and "not" tokenizes to a single
Identifier token. -/
theorem c10_keyword_set :
    (∀ s : List Char, s ∈ KEYWORDS ↔
      (s = "local".data ∨ s = "function".data ∨ s = "while".data ∨
       s = "repeat".data ∨ s = "until".data ∨ s = "for".data ∨
       s = "do".data ∨ s = "end".data)) ∧
    (∀ s : List Char, s ∉ KEYWORDS → s ≠ "true".data → s ≠ "false".data →
      s ≠ "nil".data → classify_identifier s = .Identifier s) ∧
    token_kinds (tokenize "if".data) = .ok [.Identifier "if".data] ∧
    token_kinds (tokenize "then".data) = .ok [.Identifier "then".data] ∧
    token_kinds (tokenize "else".data) = .ok [.Identifier "else".data] ∧
    token_kinds (tokenize "elseif".data) = .ok [.Identifier "elseif".data] ∧
    token_kinds (tokenize "not".data) = .ok [.Identifier "not".data] := by
  refine ⟨?_, ?_, by decide, by decide, by decide, by decide, by decide⟩
  · intro s
    simp [KEYWORDS]
  · intro s h1 h2 h3 h4
    rw [classify_identifier, if_neg h1, if_neg h2, if_neg h3, if_neg h4]

theorem c10_keyword_set_witness :
    classify_identifier "elseif".data = .Identifier "elseif".data :=
  c10_keyword_set.2.1 "elseif".data (by decide) (by decide) (by decide)
    (by decide)

/-! ## AST data model (src/ast.rs) -/

/-- Enum `UnaryOpKind` of src/ast.rs. -/
inductive UnaryOpKind where
  | Negate
  | BooleanNot
  | Length
deriving DecidableEq, Repr

/-- Enum `BinaryOpKind` of src/ast.rs. -/
inductive BinaryOpKind where
  | Add
  | Subtract
  | Multiply
  | Divide
  | Exponent
  | Concat
deriving DecidableEq, Repr

mutual

/-- Enum `Expression` of src/ast.rs. -/
inductive Expression where
  | Nil
  | Bool (b : Bool)
  | Number (s : List Char)
  | String (s : List Char)
  | VarArg
  | Table (t : TableLiteral)
  | FunctionCall (c : FunctionCall)
  | Name (s : List Char)
  | ParenExpression (e : Expression)
  | UnaryOp (u : UnaryOp)
  | BinaryOp (b : BinaryOp)

/-- Struct `UnaryOp` of src/ast.rs. -/
inductive UnaryOp where
  | mk (operator : UnaryOpKind) (argument : Expression)

/-- Struct `BinaryOp` of src/ast.rs. -/
inductive BinaryOp where
  | mk (operator : BinaryOpKind) (left : Expression) (right : Expression)

/-- Struct `FunctionCall` of src/ast.rs. -/
inductive FunctionCall where
  | mk (name_expression : Expression) (arguments : List Expression)

/-- Enum `TableKey` of src/ast.rs. -/
inductive TableKey where
  | Expression (e : Expression)
  | Name (s : List Char)

/-- Struct `TableLiteral` of src/ast.rs. -/
inductive TableLiteral where
  | mk (items : List (Option TableKey × Expression))

/-- Struct `Assignment` of src/ast.rs. -/
inductive Assignment where
  | mk (names : List (List Char)) (values : List Expression)

/-- Struct `LocalAssignment` of src/ast.rs. -/
inductive LocalAssignment where
  | mk (names : List (List Char)) (values : List Expression)

/-- Struct `NumericFor` of src/ast.rs (`end` is a reserved word in Lean). -/
inductive NumericFor where
  | mk (var : List Char) (start : Expression) (end_ : Expression)
      (step : Option Expression) (body : Chunk)

/-- Struct `IfStatement` of src/ast.rs. -/
inductive IfStatement where
  | mk (condition : Expression) (body : Chunk)
      (else_if_branches : List (Expression × Chunk))
      (else_branch : Option Chunk)

/-- Struct `WhileLoop` of src/ast.rs. -/
inductive WhileLoop where
  | mk (condition : Expression) (body : Chunk)

/-- Struct `RepeatLoop` of src/ast.rs. -/
inductive RepeatLoop where
  | mk (condition : Expression) (body : Chunk)

/-- Struct `FunctionDeclaration` of src/ast.rs (field `local` is a reserved
word in Lean and is rendered `is_local`). -/
inductive FunctionDeclaration where
  | mk (name : List Char) (body : Chunk) (parameters : List (List Char))
      (is_local : Bool)

/-- Enum `Statement` of src/ast.rs. -/
inductive Statement where
  | Assignment (a : Assignment)
  | LocalAssignment (a : LocalAssignment)
  | FunctionCall (c : FunctionCall)
  | NumericFor (n : NumericFor)
  | IfStatement (i : IfStatement)
  | WhileLoop (w : WhileLoop)
  | RepeatLoop (r : RepeatLoop)
  | FunctionDeclaration (f : FunctionDeclaration)

/-- Struct `Chunk` of src/ast.rs. -/
inductive Chunk where
  | mk (statements : List Statement)

end

/-! ## Parser-side tokens

src/parser.rs imports `tokenizer::{Token, TokenKind, Symbol}` and matches on
`TokenKind::Symbol(..)`, `TokenKind::Identifier(..)` and
`TokenKind::NumberLiteral(..)`; the revision of the tokenizer declaring
`Symbol` and that form of `TokenKind` is not under src.  The two types below
model that missing revision: the `Symbol` constructors are exactly the ones
src/parser.rs names, and the token shape follows the spec (kind, leading
whitespace, 1-based line and column). -/

/-- Modelled from the spec: the `Symbol` enum of the tokenizer revision
src/parser.rs compiles against (missing from src); constructors are the ones
referenced in src/parser.rs. -/
inductive Symbol where
  | Local
  | Function
  | While
  | Repeat
  | Until
  | For
  | Do
  | End
  | If
  | Then
  | ElseIf
  | Else
  | Equal
  | Comma
  | Semicolon
  | Plus
  | Minus
  | Star
  | Slash
  | Caret
  | TwoDots
  | Hash
  | Not
  | LeftParen
  | RightParen
  | LeftBracket
  | RightBracket
  | LeftBrace
  | RightBrace
deriving DecidableEq, Repr

/-- Modelled from the spec: the token-kind union of the missing tokenizer
revision, as matched by src/parser.rs (§3 of the spec: keywords and
operators/delimiters appear as distinguished symbols, plus identifier,
number, string, bool and nil literals). -/
inductive PTokenKind where
  | Symbol (s : Symbol)
  | Identifier (name : List Char)
  | NumberLiteral (value : List Char)
  | StringLiteral (value : List Char)
  | BoolLiteral (b : Bool)
  | NilLiteral
deriving DecidableEq, Repr

/-- Modelled from the spec: token shape `kind, leading whitespace, 1-based
line, 1-based column` (§3/§6) for the parser-side token type. -/
structure PToken where
  kind : PTokenKind
  whitespace : List Char
  line : Nat
  column : Nat
deriving DecidableEq, Repr

/-! ## Parser combinator engine

The `parser_core` module (ParseState, ParseAbort, the combinators) is not
under src; the definitions below are modelled from §4.2 of the spec and from
how src/parser.rs uses them.  A parsing rule maps a state to either success
(new state and value) or a two-tier abort; iterating combinators are driven
by a fuel counter, which only bounds the number of iterations and recursion
depth. -/

/-- Modelled from the spec: the two-tier failure type (NoMatch is a soft,
retryable failure; Error a hard failure carrying a diagnostic). -/
inductive ParseAbort where
  | NoMatch
  | Error (message : List Char)
deriving DecidableEq, Repr

/-- Modelled from the spec: the cursor into an externally-owned token
sequence (shared read-only tokens plus a position index). -/
structure ParseState where
  tokens : List PToken
  position : Nat
deriving DecidableEq, Repr

/-- Peek at the token at the current position without consuming it. -/
def ParseState.peek (state : ParseState) : Option PToken :=
  state.tokens.get? state.position

/-- Advance the cursor by `amount` tokens. -/
def ParseState.advance (state : ParseState) (amount : Nat) : ParseState :=
  { state with position := state.position + amount }

/-- Outcome of a parsing rule. -/
abbrev PResult (α : Type) := Except ParseAbort (ParseState × α)

/-- Struct `ParseToken` of src/parser.rs: succeeds iff the next token's kind
equals the expected kind, consuming exactly one token. -/
def parse_token (kind : PTokenKind) (state : ParseState) : PResult PToken :=
  match state.peek with
  | some token =>
    if token.kind = kind then .ok (state.advance 1, token)
    else .error .NoMatch
  | none => .error .NoMatch

/-- Struct `ParseSymbol` of src/parser.rs. -/
def parse_symbol (s : Symbol) (state : ParseState) : PResult Unit :=
  match parse_token (.Symbol s) state with
  | .ok (state, _) => .ok (state, ())
  | .error e => .error e

/-- Struct `ParseNumber` of src/parser.rs. -/
def parse_number (state : ParseState) : PResult (List Char) :=
  match state.peek with
  | some { kind := .NumberLiteral value, .. } => .ok (state.advance 1, value)
  | _ => .error .NoMatch

/-- Struct `ParseIdentifier` of src/parser.rs. -/
def parse_identifier (state : ParseState) : PResult (List Char) :=
  match state.peek with
  | some { kind := .Identifier name, .. } => .ok (state.advance 1, name)
  | _ => .error .NoMatch

/-- Struct `ParseUnaryOp` of src/parser.rs: `-`, then `#`, then `not`. -/
def parse_unary_op (state : ParseState) : PResult UnaryOpKind :=
  match parse_symbol .Minus state with
  | .ok (state, _) => .ok (state, .Negate)
  | .error _ =>
  match parse_symbol .Hash state with
  | .ok (state, _) => .ok (state, .Length)
  | .error _ =>
  match parse_symbol .Not state with
  | .ok (state, _) => .ok (state, .BooleanNot)
  | .error _ => .error .NoMatch

/-- The symbol-to-operator table inside `ParseBinaryOp` of src/parser.rs. -/
def binary_op_kind : Symbol → Option BinaryOpKind
  | .Plus => some .Add
  | .Minus => some .Subtract
  | .Star => some .Multiply
  | .Slash => some .Divide
  | .Caret => some .Exponent
  | .TwoDots => some .Concat
  | _ => none

/-- Struct `ParseBinaryOp` of src/parser.rs: peeks a symbol token and
consumes it when it denotes a binary operator. -/
def parse_binary_op (state : ParseState) : PResult BinaryOpKind :=
  match state.peek with
  | some { kind := .Symbol symbol, .. } =>
    match binary_op_kind symbol with
    | some kind => .ok (state.advance 1, kind)
    | none => .error .NoMatch
  | _ => .error .NoMatch

/-- Modelled from the spec: the `ZeroOrMore` combinator — repeatedly apply
the rule, collecting results in order, stopping at the first soft failure
and propagating hard failures. -/
def zero_or_more {α : Type} (fuel : Nat) (rule : ParseState → PResult α)
    (state : ParseState) : PResult (List α) :=
  match fuel with
  | 0 => .ok (state, [])
  | fuel + 1 =>
    match rule state with
    | .ok (state2, value) =>
      match zero_or_more fuel rule state2 with
      | .ok (state3, values) => .ok (state3, value :: values)
      | .error e => .error e
    | .error .NoMatch => .ok (state, [])
    | .error (.Error m) => .error (.Error m)

/-- Modelled from the spec: the `Optional` combinator — success with a
present/absent value; soft failures become "absent", hard failures
propagate. -/
def optional_rule {α : Type} (rule : ParseState → PResult α)
    (state : ParseState) : PResult (Option α) :=
  match rule state with
  | .ok (state2, value) => .ok (state2, some value)
  | .error .NoMatch => .ok (state, none)
  | .error (.Error m) => .error (.Error m)

/-- Modelled from the spec: the `Or` combinator used for table separators —
try the first rule, on soft failure the second; hard failures propagate. -/
def or_rule {α : Type} (rule1 rule2 : ParseState → PResult α)
    (state : ParseState) : PResult α :=
  match rule1 state with
  | .ok r => .ok r
  | .error .NoMatch => rule2 state
  | .error (.Error m) => .error (.Error m)

/-- Modelled from the spec: the continuation shared by the delimited-list
combinators — repeatedly parse a separator followed by an item.  A soft
failure of the separator ends the list; after a separator, a soft failure of
the item ends the list right after the separator when a trailing separator
is allowed and otherwise soft-fails the whole list. -/
def delimited_more {α β : Type} (fuel : Nat) (item : ParseState → PResult α)
    (separator : ParseState → PResult β) (allow_trailing : Bool)
    (state : ParseState) : PResult (List α) :=
  match fuel with
  | 0 => .ok (state, [])
  | fuel + 1 =>
    match separator state with
    | .error .NoMatch => .ok (state, [])
    | .error (.Error m) => .error (.Error m)
    | .ok (state2, _) =>
      match item state2 with
      | .ok (state3, value) =>
        match delimited_more fuel item separator allow_trailing state3 with
        | .ok (state4, values) => .ok (state4, value :: values)
        | .error e => .error e
      | .error .NoMatch =>
        if allow_trailing then .ok (state2, []) else .error .NoMatch
      | .error (.Error m) => .error (.Error m)

/-- Modelled from the spec: the `DelimitedOneOrMore` combinator — at least
one item, items separated by the separator, no trailing separator. -/
def delimited_one_or_more {α β : Type} (fuel : Nat)
    (item : ParseState → PResult α) (separator : ParseState → PResult β)
    (state : ParseState) : PResult (List α) :=
  match item state with
  | .error e => .error e
  | .ok (state2, value) =>
    match delimited_more fuel item separator false state2 with
    | .ok (state3, values) => .ok (state3, value :: values)
    | .error e => .error e

/-- Modelled from the spec: the `DelimitedZeroOrMore` combinator — possibly
empty delimited list, with a flag allowing a trailing separator. -/
def delimited_zero_or_more {α β : Type} (fuel : Nat)
    (item : ParseState → PResult α) (separator : ParseState → PResult β)
    (allow_trailing : Bool) (state : ParseState) : PResult (List α) :=
  match item state with
  | .error .NoMatch => .ok (state, [])
  | .error (.Error m) => .error (.Error m)
  | .ok (state2, value) =>
    match delimited_more fuel item separator allow_trailing state2 with
    | .ok (state3, values) => .ok (state3, value :: values)
    | .error e => .error e

/-! ## Grammar rules (src/parser.rs)

One function per `define_parser!` rule.  The mutual recursion is made
structural by a fuel counter decremented at every nested rule invocation;
`parse_from_tokens` supplies fuel ample for its token list.  The
`parse_first_of!` cascades of `ParseStatement` and `ParseValue` are written
as nested matches: success wraps the value, a soft failure tries the next
alternative, a hard failure aborts.  The inline elseif loop, else branch and
numeric-for step expression of src/parser.rs are factored into the helper
rules `parse_else_ifs`, `parse_else_branch` and `parse_numeric_for_step`. -/

mutual

/-- Struct `ParseChunk` of src/parser.rs: `ZeroOrMore(ParseStatement)`. -/
def parse_chunk : Nat → ParseState → PResult Chunk
  | 0, _ => .error .NoMatch
  | fuel + 1, state =>
    match zero_or_more (fuel + 1) (fun s => parse_statement fuel s) state with
    | .ok (state, statements) => .ok (state, .mk statements)
    | .error e => .error e
termination_by structural fuel _ => fuel

/-- Struct `ParseStatement` of src/parser.rs: first-of over the seven
statement rules, in this exact order. -/
def parse_statement : Nat → ParseState → PResult Statement
  | 0, _ => .error .NoMatch
  | fuel + 1, state =>
    match parse_local_assignment fuel state with
    | .ok (state, value) => .ok (state, .LocalAssignment value)
    | .error (.Error m) => .error (.Error m)
    | .error .NoMatch =>
    match parse_function_call fuel state with
    | .ok (state, value) => .ok (state, .FunctionCall value)
    | .error (.Error m) => .error (.Error m)
    | .error .NoMatch =>
    match parse_numeric_for fuel state with
    | .ok (state, value) => .ok (state, .NumericFor value)
    | .error (.Error m) => .error (.Error m)
    | .error .NoMatch =>
    match parse_if_statement fuel state with
    | .ok (state, value) => .ok (state, .IfStatement value)
    | .error (.Error m) => .error (.Error m)
    | .error .NoMatch =>
    match parse_while_loop fuel state with
    | .ok (state, value) => .ok (state, .WhileLoop value)
    | .error (.Error m) => .error (.Error m)
    | .error .NoMatch =>
    match parse_repeat_loop fuel state with
    | .ok (state, value) => .ok (state, .RepeatLoop value)
    | .error (.Error m) => .error (.Error m)
    | .error .NoMatch =>
    match parse_function_declaration fuel state with
    | .ok (state, value) => .ok (state, .FunctionDeclaration value)
    | .error e => .error e
termination_by structural fuel _ => fuel

/-- Struct `ParseExpression` of src/parser.rs: `exp ::= unop exp |
value [binop exp]`. -/
def parse_expression : Nat → ParseState → PResult Expression
  | 0, _ => .error .NoMatch
  | fuel + 1, state =>
    match parse_unary_op state with
    | .ok (state, operator) =>
      match parse_expression fuel state with
      | .ok (state, argument) => .ok (state, .UnaryOp (.mk operator argument))
      | .error e => .error e
    | .error _ =>
      match parse_value fuel state with
      | .ok (state, left) =>
        match parse_binary_op state with
        | .ok (state, operator) =>
          match parse_expression fuel state with
          | .ok (state, right) =>
            .ok (state, .BinaryOp (.mk operator left right))
          | .error e => .error e
        | .error _ => .ok (state, left)
      | .error e => .error e
termination_by structural fuel _ => fuel

/-- Struct `ParseParenExpression` of src/parser.rs. -/
def parse_paren_expression : Nat → ParseState → PResult Expression
  | 0, _ => .error .NoMatch
  | fuel + 1, state =>
    match parse_symbol .LeftParen state with
    | .error e => .error e
    | .ok (state, _) =>
    match parse_expression fuel state with
    | .error e => .error e
    | .ok (state, expression) =>
    match parse_symbol .RightParen state with
    | .error e => .error e
    | .ok (state, _) => .ok (state, expression)
termination_by structural fuel _ => fuel

/-- Struct `ParseValue` of src/parser.rs: first-of Number, FunctionCall,
Name, TableLiteral, ParenExpression. -/
def parse_value : Nat → ParseState → PResult Expression
  | 0, _ => .error .NoMatch
  | fuel + 1, state =>
    match parse_number state with
    | .ok (state, value) => .ok (state, .Number value)
    | .error (.Error m) => .error (.Error m)
    | .error .NoMatch =>
    match parse_function_call fuel state with
    | .ok (state, value) => .ok (state, .FunctionCall value)
    | .error (.Error m) => .error (.Error m)
    | .error .NoMatch =>
    match parse_identifier state with
    | .ok (state, value) => .ok (state, .Name value)
    | .error (.Error m) => .error (.Error m)
    | .error .NoMatch =>
    match parse_table_literal fuel state with
    | .ok (state, value) => .ok (state, .Table value)
    | .error (.Error m) => .error (.Error m)
    | .error .NoMatch =>
    match parse_paren_expression fuel state with
    | .ok (state, value) => .ok (state, .ParenExpression value)
    | .error e => .error e
termination_by structural fuel _ => fuel

/-- Struct `ParseLocalAssignment` of src/parser.rs:
`local namelist [= explist]`. -/
def parse_local_assignment : Nat → ParseState → PResult LocalAssignment
  | 0, _ => .error .NoMatch
  | fuel + 1, state =>
    match parse_symbol .Local state with
    | .error e => .error e
    | .ok (state, _) =>
    match delimited_one_or_more (fuel + 1) (fun s => parse_identifier s)
        (fun s => parse_symbol .Comma s) state with
    | .error e => .error e
    | .ok (state, names) =>
    match parse_symbol .Equal state with
    | .ok (state, _) =>
      match delimited_one_or_more (fuel + 1) (fun s => parse_expression fuel s)
          (fun s => parse_symbol .Comma s) state with
      | .error e => .error e
      | .ok (state, values) => .ok (state, .mk names values)
    | .error _ => .ok (state, .mk names [])

/-- Struct `ParseFunctionCall` of src/parser.rs:
`Name ( explist )`, no trailing comma; the call target is wrapped as a bare
Name expression. -/
def parse_function_call : Nat → ParseState → PResult FunctionCall
  | 0, _ => .error .NoMatch
  | fuel + 1, state =>
    match parse_identifier state with
    | .error e => .error e
    | .ok (state, name) =>
    match parse_symbol .LeftParen state with
    | .error e => .error e
    | .ok (state, _) =>
    match delimited_zero_or_more (fuel + 1) (fun s => parse_expression fuel s)
        (fun s => parse_symbol .Comma s) false state with
    | .error e => .error e
    | .ok (state, expressions) =>
    match parse_symbol .RightParen state with
    | .error e => .error e
    | .ok (state, _) => .ok (state, .mk (.Name name) expressions)
termination_by structural fuel _ => fuel

/-- The inline step match of `ParseNumericFor` in src/parser.rs: after the
two bound expressions, a comma introduces a step expression, `do` means no
step, and anything else soft-fails the whole rule. -/
def parse_numeric_for_step : Nat → ParseState → PResult (Option Expression)
  | 0, _ => .error .NoMatch
  | fuel + 1, state =>
    match state.peek with
    | some { kind := .Symbol .Comma, .. } =>
      match parse_expression fuel (state.advance 1) with
      | .ok (state, parsed_step) => .ok (state, some parsed_step)
      | .error e => .error e
    | some { kind := .Symbol .Do, .. } => .ok (state, none)
    | _ => .error .NoMatch

/-- Struct `ParseNumericFor` of src/parser.rs:
`for Name = exp , exp [, exp] do chunk end`. -/
def parse_numeric_for : Nat → ParseState → PResult NumericFor
  | 0, _ => .error .NoMatch
  | fuel + 1, state =>
    match parse_symbol .For state with
    | .error e => .error e
    | .ok (state, _) =>
    match parse_identifier state with
    | .error e => .error e
    | .ok (state, var) =>
    match parse_symbol .Equal state with
    | .error e => .error e
    | .ok (state, _) =>
    match parse_expression fuel state with
    | .error e => .error e
    | .ok (state, start) =>
    match parse_symbol .Comma state with
    | .error e => .error e
    | .ok (state, _) =>
    match parse_expression fuel state with
    | .error e => .error e
    | .ok (state, end_) =>
    match parse_numeric_for_step fuel state with
    | .error e => .error e
    | .ok (state, step) =>
    match parse_symbol .Do state with
    | .error e => .error e
    | .ok (state, _) =>
    match parse_chunk fuel state with
    | .error e => .error e
    | .ok (state, body) =>
    match parse_symbol .End state with
    | .error e => .error e
    | .ok (state, _) => .ok (state, .mk var start end_ step body)
termination_by structural fuel _ => fuel

/-- The elseif loop of `ParseIfStatement` in src/parser.rs: collect
`elseif exp then chunk` groups until the `elseif` symbol soft-fails. -/
def parse_else_ifs : Nat → ParseState → PResult (List (Expression × Chunk))
  | 0, state => .ok (state, [])
  | fuel + 1, state =>
    match parse_symbol .ElseIf state with
    | .error _ => .ok (state, [])
    | .ok (state, _) =>
    match parse_expression fuel state with
    | .error e => .error e
    | .ok (state, condition) =>
    match parse_symbol .Then state with
    | .error e => .error e
    | .ok (state, _) =>
    match parse_chunk fuel state with
    | .error e => .error e
    | .ok (state, body) =>
    match parse_else_ifs fuel state with
    | .error e => .error e
    | .ok (state, rest) => .ok (state, (condition, body) :: rest)
termination_by structural fuel _ => fuel

/-- The else match of `ParseIfStatement` in src/parser.rs: an `else` symbol
followed by a chunk, or nothing. -/
def parse_else_branch : Nat → ParseState → PResult (Option Chunk)
  | 0, state => .ok (state, none)
  | fuel + 1, state =>
    match parse_symbol .Else state with
    | .error _ => .ok (state, none)
    | .ok (state, _) =>
    match parse_chunk fuel state with
    | .error e => .error e
    | .ok (state, body) => .ok (state, some body)
termination_by structural fuel _ => fuel

/-- Struct `ParseIfStatement` of src/parser.rs:
`if exp then chunk {elseif exp then chunk} [else chunk] end`. -/
def parse_if_statement : Nat → ParseState → PResult IfStatement
  | 0, _ => .error .NoMatch
  | fuel + 1, state =>
    match parse_symbol .If state with
    | .error e => .error e
    | .ok (state, _) =>
    match parse_expression fuel state with
    | .error e => .error e
    | .ok (state, condition) =>
    match parse_symbol .Then state with
    | .error e => .error e
    | .ok (state, _) =>
    match parse_chunk fuel state with
    | .error e => .error e
    | .ok (state, body) =>
    match parse_else_ifs fuel state with
    | .error e => .error e
    | .ok (state, else_if_branches) =>
    match parse_else_branch fuel state with
    | .error e => .error e
    | .ok (state, else_branch) =>
    match parse_symbol .End state with
    | .error e => .error e
    | .ok (state, _) =>
      .ok (state, .mk condition body else_if_branches else_branch)
termination_by structural fuel _ => fuel

/-- Struct `ParseWhileLoop` of src/parser.rs: `while exp do chunk end`. -/
def parse_while_loop : Nat → ParseState → PResult WhileLoop
  | 0, _ => .error .NoMatch
  | fuel + 1, state =>
    match parse_symbol .While state with
    | .error e => .error e
    | .ok (state, _) =>
    match parse_expression fuel state with
    | .error e => .error e
    | .ok (state, condition) =>
    match parse_symbol .Do state with
    | .error e => .error e
    | .ok (state, _) =>
    match parse_chunk fuel state with
    | .error e => .error e
    | .ok (state, body) =>
    match parse_symbol .End state with
    | .error e => .error e
    | .ok (state, _) => .ok (state, .mk condition body)
termination_by structural fuel _ => fuel

/-- Struct `ParseRepeatLoop` of src/parser.rs: `repeat chunk until exp`. -/
def parse_repeat_loop : Nat → ParseState → PResult RepeatLoop
  | 0, _ => .error .NoMatch
  | fuel + 1, state =>
    match parse_symbol .Repeat state with
    | .error e => .error e
    | .ok (state, _) =>
    match parse_chunk fuel state with
    | .error e => .error e
    | .ok (state, body) =>
    match parse_symbol .Until state with
    | .error e => .error e
    | .ok (state, _) =>
    match parse_expression fuel state with
    | .error e => .error e
    | .ok (state, condition) => .ok (state, .mk condition body)
termination_by structural fuel _ => fuel

/-- Struct `ParseFunctionDeclaration` of src/parser.rs:
`[local] function Name ( paramlist ) chunk end`, no trailing comma. -/
def parse_function_declaration : Nat → ParseState → PResult FunctionDeclaration
  | 0, _ => .error .NoMatch
  | fuel + 1, state =>
    match optional_rule (fun s => parse_symbol .Local s) state with
    | .error e => .error e
    | .ok (state, opt_local) =>
    match parse_symbol .Function state with
    | .error e => .error e
    | .ok (state, _) =>
    match parse_identifier state with
    | .error e => .error e
    | .ok (state, name) =>
    match parse_symbol .LeftParen state with
    | .error e => .error e
    | .ok (state, _) =>
    match delimited_zero_or_more (fuel + 1) (fun s => parse_identifier s)
        (fun s => parse_symbol .Comma s) false state with
    | .error e => .error e
    | .ok (state, parameters) =>
    match parse_symbol .RightParen state with
    | .error e => .error e
    | .ok (state, _) =>
    match parse_chunk fuel state with
    | .error e => .error e
    | .ok (state, body) =>
    match parse_symbol .End state with
    | .error e => .error e
    | .ok (state, _) =>
      .ok (state, .mk name body parameters opt_local.isSome)
termination_by structural fuel _ => fuel

/-- Struct `ParseTableKey` of src/parser.rs: a bare identifier key, else a
bracketed expression key; a hard failure of the identifier rule
propagates. -/
def parse_table_key : Nat → ParseState → PResult TableKey
  | 0, _ => .error .NoMatch
  | fuel + 1, state =>
    match parse_identifier state with
    | .ok (state, identifier) => .ok (state, .Name identifier)
    | .error (.Error m) => .error (.Error m)
    | .error .NoMatch =>
    match parse_symbol .LeftBracket state with
    | .error e => .error e
    | .ok (state, _) =>
    match parse_expression fuel state with
    | .error e => .error e
    | .ok (state, key) =>
    match parse_symbol .RightBracket state with
    | .error e => .error e
    | .ok (state, _) => .ok (state, .Expression key)
termination_by structural fuel _ => fuel

/-- Struct `ParseTableValue` of src/parser.rs: an optional key, `=` only
when a key was present, then a value expression. -/
def parse_table_value : Nat → ParseState → PResult (Option TableKey × Expression)
  | 0, _ => .error .NoMatch
  | fuel + 1, state =>
    match optional_rule (fun s => parse_table_key fuel s) state with
    | .error e => .error e
    | .ok (state, key) =>
      match key with
      | some k =>
        match parse_symbol .Equal state with
        | .error e => .error e
        | .ok (state, _) =>
        match parse_expression fuel state with
        | .error e => .error e
        | .ok (state, value) => .ok (state, (some k, value))
      | none =>
        match parse_expression fuel state with
        | .error e => .error e
        | .ok (state, value) => .ok (state, (none, value))
termination_by structural fuel _ => fuel

/-- Struct `ParseTableLiteral` of src/parser.rs: `{` then items separated by
`,` or `;` with a trailing separator allowed, then `}`. -/
def parse_table_literal : Nat → ParseState → PResult TableLiteral
  | 0, _ => .error .NoMatch
  | fuel + 1, state =>
    match parse_symbol .LeftBrace state with
    | .error e => .error e
    | .ok (state, _) =>
    match delimited_zero_or_more (fuel + 1) (fun s => parse_table_value fuel s)
        (or_rule (fun s => parse_symbol .Comma s)
          (fun s => parse_symbol .Semicolon s)) true state with
    | .error e => .error e
    | .ok (state, items) =>
    match parse_symbol .RightBrace state with
    | .error e => .error e
    | .ok (state, _) => .ok (state, .mk items)
termination_by structural fuel _ => fuel

end

/-! ## Entry point (`parse_from_tokens` in src/parser.rs) -/

/-- Fuel supplied to the grammar by the entry point.  Every cycle through the
mutually recursive rules consumes at least one token, and entering a nested
rule costs at most four fuel per consumed token, so this bound is ample for
any parse of the token list; it is irrelevant to the theorems below, which
are stated either conditionally on the outcome or with explicit fuel. -/
def parse_fuel (tokens : List PToken) : Nat := 4 * tokens.length + 16

/-- Name of a symbol as printed by the Rust `Debug` derive. -/
def symbol_name : Symbol → List Char
  | .Local => "Local".data
  | .Function => "Function".data
  | .While => "While".data
  | .Repeat => "Repeat".data
  | .Until => "Until".data
  | .For => "For".data
  | .Do => "Do".data
  | .End => "End".data
  | .If => "If".data
  | .Then => "Then".data
  | .ElseIf => "ElseIf".data
  | .Else => "Else".data
  | .Equal => "Equal".data
  | .Comma => "Comma".data
  | .Semicolon => "Semicolon".data
  | .Plus => "Plus".data
  | .Minus => "Minus".data
  | .Star => "Star".data
  | .Slash => "Slash".data
  | .Caret => "Caret".data
  | .TwoDots => "TwoDots".data
  | .Hash => "Hash".data
  | .Not => "Not".data
  | .LeftParen => "LeftParen".data
  | .RightParen => "RightParen".data
  | .LeftBracket => "LeftBracket".data
  | .RightBracket => "RightBracket".data
  | .LeftBrace => "LeftBrace".data
  | .RightBrace => "RightBrace".data

/-- Rendering of a token kind after the Rust `Debug` derive. -/
def debug_token_kind : PTokenKind → List Char
  | .Symbol s => "Symbol(".data ++ symbol_name s ++ ")".data
  | .Identifier name => "Identifier(\"".data ++ name ++ "\")".data
  | .NumberLiteral value => "NumberLiteral(\"".data ++ value ++ "\")".data
  | .StringLiteral value => "StringLiteral(\"".data ++ value ++ "\")".data
  | .BoolLiteral true => "BoolLiteral(true)".data
  | .BoolLiteral false => "BoolLiteral(false)".data
  | .NilLiteral => "NilLiteral".data

/-- Rendering of a token after the Rust `Debug` derive (inner escaping of the
whitespace string is not modelled). -/
def debug_token (t : PToken) : List Char :=
  "Token \x7b kind: ".data ++ debug_token_kind t.kind ++
  ", whitespace: \"".data ++ t.whitespace ++
  "\", line: ".data ++ (Nat.repr t.line).data ++
  ", column: ".data ++ (Nat.repr t.column).data ++ " \x7d".data

/-- The leftover-input message of `parse_from_tokens`:
`format!("A token was left at the end of the stream: {:?}", token)`. -/
def leftover_error_message (t : PToken) : List Char :=
  "A token was left at the end of the stream: ".data ++ debug_token t

/-- Entry point `parse_from_tokens` of src/parser.rs: parse a full Chunk,
then require the cursor to be exactly at the end of the token sequence; a
remaining token is reported as a leftover-input error naming it, and a hard
failure's message is returned as the error. -/
def parse_from_tokens (tokens : List PToken) : Except (List Char) Chunk :=
  match parse_chunk (parse_fuel tokens) ⟨tokens, 0⟩ with
  | .error .NoMatch => .error "No error reported".data
  | .error (.Error message) => .error message
  | .ok (state, chunk) =>
    match state.peek with
    | some token => .error (leftover_error_message token)
    | none => .ok chunk

/-! ## Bridge from the src tokenizer to the parser's tokens

Modelled from the spec: the tokenizer revision producing the parser's
`Symbol`-bearing kinds is not under src.  Per §3, keyword text and
operator/delimiter text classify to the corresponding distinguished symbols;
identifier, number, bool and nil kinds carry over unchanged. -/

/-- Modelled from the spec: the symbol a reserved word stands for. -/
def keyword_symbol (s : List Char) : Option Symbol :=
  if s = "local".data then some .Local
  else if s = "function".data then some .Function
  else if s = "while".data then some .While
  else if s = "repeat".data then some .Repeat
  else if s = "until".data then some .Until
  else if s = "for".data then some .For
  else if s = "do".data then some .Do
  else if s = "end".data then some .End
  else none

/-- Modelled from the spec: the symbol an operator character stands for. -/
def operator_symbol (s : List Char) : Option Symbol :=
  if s = ['='] then some .Equal
  else if s = ['+'] then some .Plus
  else if s = [','] then some .Comma
  else if s = ['{'] then some .LeftBrace
  else if s = ['}'] then some .RightBrace
  else if s = ['['] then some .LeftBracket
  else if s = [']'] then some .RightBracket
  else none

/-- Modelled from the spec: mapping of the src tokenizer's kinds to the
parser-side kinds. -/
def to_parser_token_kind : TokenKind → Option PTokenKind
  | .Keyword s => (keyword_symbol s).map .Symbol
  | .Operator s => (operator_symbol s).map .Symbol
  | .Identifier s => some (.Identifier s)
  | .NumberLiteral s => some (.NumberLiteral s)
  | .BoolLiteral b => some (.BoolLiteral b)
  | .NilLiteral => some .NilLiteral
  | .OpenParen => some (.Symbol .LeftParen)
  | .CloseParen => some (.Symbol .RightParen)

/-- Modelled from the spec: a src tokenizer token as a parser-side token,
keeping whitespace and position. -/
def to_parser_token (t : Token) : Option PToken :=
  (to_parser_token_kind t.kind).map fun k => ⟨k, t.whitespace, t.line, t.column⟩

/-! ## Claims about the parser -/

/-- Claim C1: tokenizing "local x = 1" and parsing the resulting tokens
succeeds and yields a Chunk with exactly one statement, a LocalAssignment
with names ["x"] and values [Number "1"].  The middle conjunct carries the
tokens across the spec-modelled kind bridge. -/
theorem c1_local_assignment_example :
    tokenize "local x = 1".data = .ok [
      ⟨.Keyword "local".data, [], 1, 1⟩,
      ⟨.Identifier "x".data, " ".data, 1, 7⟩,
      ⟨.Operator "=".data, " ".data, 1, 9⟩,
      ⟨.NumberLiteral "1".data, " ".data, 1, 11⟩] ∧
    ([⟨.Keyword "local".data, [], 1, 1⟩,
      ⟨.Identifier "x".data, " ".data, 1, 7⟩,
      ⟨.Operator "=".data, " ".data, 1, 9⟩,
      ⟨.NumberLiteral "1".data, " ".data, 1, 11⟩] : List Token).mapM
        to_parser_token = some [
      ⟨.Symbol .Local, [], 1, 1⟩,
      ⟨.Identifier "x".data, " ".data, 1, 7⟩,
      ⟨.Symbol .Equal, " ".data, 1, 9⟩,
      ⟨.NumberLiteral "1".data, " ".data, 1, 11⟩] ∧
    parse_from_tokens [
      ⟨.Symbol .Local, [], 1, 1⟩,
      ⟨.Identifier "x".data, " ".data, 1, 7⟩,
      ⟨.Symbol .Equal, " ".data, 1, 9⟩,
      ⟨.NumberLiteral "1".data, " ".data, 1, 11⟩] =
    .ok (.mk [.LocalAssignment (.mk ["x".data] [.Number "1".data])]) :=
  ⟨by decide, by decide, by rfl⟩

theorem zero_or_more_ne_no_match {α : Type} (fuel : Nat)
    (rule : ParseState → PResult α) :
    ∀ state, zero_or_more fuel rule state ≠ .error .NoMatch := by
  induction fuel with
  | zero =>
    intro state
    simp [zero_or_more]
  | succ fuel ih =>
    intro state
    rw [zero_or_more]
    cases hr : rule state with
    | ok p =>
      obtain ⟨st2, v⟩ := p
      cases hz : zero_or_more fuel rule st2 with
      | ok q => simp [hz]
      | error e =>
        have hne := ih st2
        rw [hz] at hne
        simp [hz]
        simpa using hne
    | error e =>
      cases e with
      | NoMatch => simp
      | Error m => simp

theorem parse_chunk_ne_no_match (fuel : Nat) (state : ParseState) :
    parse_chunk (fuel + 1) state ≠ .error .NoMatch := by
  rw [parse_chunk]
  cases hz : zero_or_more (fuel + 1) (fun s => parse_statement fuel s) state with
  | ok p => simp [hz]
  | error e =>
    have hne := zero_or_more_ne_no_match (fuel + 1)
      (fun s => parse_statement fuel s) state
    rw [hz] at hne
    simp [hz]
    simpa using hne

/-- Claim C3: parse first parses a full Chunk — a phase that never soft-fails
with the entry point's fuel, so it either yields a chunk or a hard error;
when the cursor is then not at the end of the token sequence the result is
an error naming the leftover token, when it is at the end the chunk is
returned, and a grammar rule's hard failure is returned as a ParseError with
its message. -/
theorem c3_leftover_token_error :
    (∀ tokens : List PToken,
      parse_chunk (parse_fuel tokens) ⟨tokens, 0⟩ ≠ .error .NoMatch) ∧
    (∀ (tokens : List PToken) (state : ParseState) (chunk : Chunk),
      parse_chunk (parse_fuel tokens) ⟨tokens, 0⟩ = .ok (state, chunk) →
      (∀ t, state.peek = some t →
        parse_from_tokens tokens = .error (leftover_error_message t)) ∧
      (state.peek = none → parse_from_tokens tokens = .ok chunk)) ∧
    (∀ (tokens : List PToken) (message : List Char),
      parse_chunk (parse_fuel tokens) ⟨tokens, 0⟩ = .error (.Error message) →
      parse_from_tokens tokens = .error message) := by
  refine ⟨?_, ?_, ?_⟩
  · intro tokens
    exact parse_chunk_ne_no_match (4 * tokens.length + 15) ⟨tokens, 0⟩
  · intro tokens state chunk h
    constructor
    · intro t ht
      simp [parse_from_tokens, h, ht]
    · intro hnone
      simp [parse_from_tokens, h, hnone]
  · intro tokens message h
    simp [parse_from_tokens, h]

theorem c3_leftover_token_error_witness :
    parse_from_tokens [⟨.Symbol .End, [], 1, 1⟩] =
      .error (leftover_error_message ⟨.Symbol .End, [], 1, 1⟩) :=
  (c3_leftover_token_error.2.1 [⟨.Symbol .End, [], 1, 1⟩]
    ⟨[⟨.Symbol .End, [], 1, 1⟩], 0⟩ (.mk []) (by rfl)).1 _ (by rfl)

/-- Claim C4: with two binary operators the parser groups strictly
right-to-left with no precedence levels: parsing `a OP1 b OP2 c` yields
`BinaryOp OP1 a (BinaryOp OP2 b c)` for every pair of binary-operator
symbols, for all operand literals and token metadata, and for any
sufficient fuel. -/
theorem c4_binary_ops_right_nested :
    ∀ (n : Nat) (t1 t2 t3 t4 t5 : PToken) (a b c : List Char)
      (s1 s2 : Symbol) (k1 k2 : BinaryOpKind),
      t1.kind = .NumberLiteral a → t2.kind = .Symbol s1 →
      t3.kind = .NumberLiteral b → t4.kind = .Symbol s2 →
      t5.kind = .NumberLiteral c →
      binary_op_kind s1 = some k1 → binary_op_kind s2 = some k2 →
      parse_expression (n + 5) ⟨[t1, t2, t3, t4, t5], 0⟩ =
        .ok (⟨[t1, t2, t3, t4, t5], 5⟩,
          .BinaryOp (.mk k1 (.Number a)
            (.BinaryOp (.mk k2 (.Number b) (.Number c))))) := by
  intro n t1 t2 t3 t4 t5 a b c s1 s2 k1 k2 h1 h2 h3 h4 h5 hk1 hk2
  obtain ⟨x1, w1, l1, q1⟩ := t1
  obtain ⟨x2, w2, l2, q2⟩ := t2
  obtain ⟨x3, w3, l3, q3⟩ := t3
  obtain ⟨x4, w4, l4, q4⟩ := t4
  obtain ⟨x5, w5, l5, q5⟩ := t5
  simp only at h1 h2 h3 h4 h5
  subst h1 h2 h3 h4 h5
  simp [parse_expression, parse_value, parse_number, parse_identifier,
    parse_unary_op, parse_symbol, parse_token, parse_binary_op,
    ParseState.peek, ParseState.advance, List.get?, hk1, hk2]

theorem c4_binary_ops_right_nested_witness :
    parse_expression (0 + 5) ⟨[⟨.NumberLiteral "1".data, [], 1, 1⟩,
      ⟨.Symbol .Plus, [], 1, 3⟩, ⟨.NumberLiteral "2".data, [], 1, 5⟩,
      ⟨.Symbol .Star, [], 1, 7⟩, ⟨.NumberLiteral "3".data, [], 1, 9⟩], 0⟩ =
    .ok (⟨[⟨.NumberLiteral "1".data, [], 1, 1⟩,
      ⟨.Symbol .Plus, [], 1, 3⟩, ⟨.NumberLiteral "2".data, [], 1, 5⟩,
      ⟨.Symbol .Star, [], 1, 7⟩, ⟨.NumberLiteral "3".data, [], 1, 9⟩], 5⟩,
      .BinaryOp (.mk .Add (.Number "1".data)
        (.BinaryOp (.mk .Multiply (.Number "2".data) (.Number "3".data))))) :=
  c4_binary_ops_right_nested 0 _ _ _ _ _ "1".data "2".data "3".data
    .Plus .Star .Add .Multiply rfl rfl rfl rfl rfl rfl rfl

/-- The binary operator a token kind denotes, if any (lifting
`binary_op_kind` from symbols to kinds). -/
def kind_binary_op : PTokenKind → Option BinaryOpKind
  | .Symbol s => binary_op_kind s
  | _ => none

/-- Claim C9: in the NumericFor rule, after `for` identifier `=` Expression
`,` Expression: a `,` token is consumed and one more Expression is parsed as
the step; a `do` token leaves the step absent; any other token (one the
second Expression does not itself consume as a binary operator) soft-fails
the whole rule with NoMatch, not a hard failure. -/
theorem c9_numeric_for_step_cases :
    (∀ (n : Nat) (v a b c : List Char),
      parse_numeric_for (n + 8) ⟨[⟨.Symbol .For, [], 1, 1⟩,
        ⟨.Identifier v, [], 1, 1⟩, ⟨.Symbol .Equal, [], 1, 1⟩,
        ⟨.NumberLiteral a, [], 1, 1⟩, ⟨.Symbol .Comma, [], 1, 1⟩,
        ⟨.NumberLiteral b, [], 1, 1⟩, ⟨.Symbol .Comma, [], 1, 1⟩,
        ⟨.NumberLiteral c, [], 1, 1⟩, ⟨.Symbol .Do, [], 1, 1⟩,
        ⟨.Symbol .End, [], 1, 1⟩], 0⟩ =
      .ok (⟨[⟨.Symbol .For, [], 1, 1⟩,
        ⟨.Identifier v, [], 1, 1⟩, ⟨.Symbol .Equal, [], 1, 1⟩,
        ⟨.NumberLiteral a, [], 1, 1⟩, ⟨.Symbol .Comma, [], 1, 1⟩,
        ⟨.NumberLiteral b, [], 1, 1⟩, ⟨.Symbol .Comma, [], 1, 1⟩,
        ⟨.NumberLiteral c, [], 1, 1⟩, ⟨.Symbol .Do, [], 1, 1⟩,
        ⟨.Symbol .End, [], 1, 1⟩], 10⟩,
        .mk v (.Number a) (.Number b) (some (.Number c)) (.mk []))) ∧
    (∀ (n : Nat) (v a b : List Char),
      parse_numeric_for (n + 8) ⟨[⟨.Symbol .For, [], 1, 1⟩,
        ⟨.Identifier v, [], 1, 1⟩, ⟨.Symbol .Equal, [], 1, 1⟩,
        ⟨.NumberLiteral a, [], 1, 1⟩, ⟨.Symbol .Comma, [], 1, 1⟩,
        ⟨.NumberLiteral b, [], 1, 1⟩, ⟨.Symbol .Do, [], 1, 1⟩,
        ⟨.Symbol .End, [], 1, 1⟩], 0⟩ =
      .ok (⟨[⟨.Symbol .For, [], 1, 1⟩,
        ⟨.Identifier v, [], 1, 1⟩, ⟨.Symbol .Equal, [], 1, 1⟩,
        ⟨.NumberLiteral a, [], 1, 1⟩, ⟨.Symbol .Comma, [], 1, 1⟩,
        ⟨.NumberLiteral b, [], 1, 1⟩, ⟨.Symbol .Do, [], 1, 1⟩,
        ⟨.Symbol .End, [], 1, 1⟩], 8⟩,
        .mk v (.Number a) (.Number b) none (.mk []))) ∧
    (∀ (n : Nat) (v a b : List Char) (k : PTokenKind) (w : List Char)
      (l q : Nat) (rest : List PToken),
      kind_binary_op k = none → k ≠ .Symbol .Comma → k ≠ .Symbol .Do →
      parse_numeric_for (n + 8) ⟨⟨.Symbol .For, [], 1, 1⟩ ::
        ⟨.Identifier v, [], 1, 1⟩ :: ⟨.Symbol .Equal, [], 1, 1⟩ ::
        ⟨.NumberLiteral a, [], 1, 1⟩ :: ⟨.Symbol .Comma, [], 1, 1⟩ ::
        ⟨.NumberLiteral b, [], 1, 1⟩ :: ⟨k, w, l, q⟩ :: rest, 0⟩ =
      .error .NoMatch) := by
  refine ⟨?_, ?_, ?_⟩
  · intro n v a b c
    simp [parse_numeric_for, parse_numeric_for_step, parse_expression,
      parse_value, parse_number, parse_identifier, parse_unary_op,
      parse_symbol, parse_token, parse_binary_op, parse_chunk,
      parse_statement, parse_local_assignment, parse_function_call,
      parse_if_statement, parse_while_loop, parse_repeat_loop,
      parse_function_declaration, zero_or_more, optional_rule,
      delimited_zero_or_more, delimited_one_or_more, delimited_more,
      binary_op_kind, or_rule, parse_else_ifs, parse_else_branch,
      parse_table_key, parse_table_value, parse_table_literal,
      parse_paren_expression, ParseState.peek, ParseState.advance, List.get?]
  · intro n v a b
    simp [parse_numeric_for, parse_numeric_for_step, parse_expression,
      parse_value, parse_number, parse_identifier, parse_unary_op,
      parse_symbol, parse_token, parse_binary_op, parse_chunk,
      parse_statement, parse_local_assignment, parse_function_call,
      parse_if_statement, parse_while_loop, parse_repeat_loop,
      parse_function_declaration, zero_or_more, optional_rule,
      delimited_zero_or_more, delimited_one_or_more, delimited_more,
      binary_op_kind, or_rule, parse_else_ifs, parse_else_branch,
      parse_table_key, parse_table_value, parse_table_literal,
      parse_paren_expression, ParseState.peek, ParseState.advance, List.get?]
  · intro n v a b k w l q rest hbin hc hd
    cases k with
    | Symbol s =>
      cases s <;> simp_all [kind_binary_op, parse_numeric_for,
        parse_numeric_for_step, parse_expression, parse_value, parse_number,
        parse_identifier, parse_unary_op, parse_symbol, parse_token,
        parse_binary_op, binary_op_kind, ParseState.peek, ParseState.advance,
        List.get?]
    | Identifier name =>
      simp [parse_numeric_for, parse_numeric_for_step, parse_expression,
        parse_value, parse_number, parse_identifier, parse_unary_op,
        parse_symbol, parse_token, parse_binary_op, binary_op_kind,
        ParseState.peek, ParseState.advance, List.get?]
    | NumberLiteral value =>
      simp [parse_numeric_for, parse_numeric_for_step, parse_expression,
        parse_value, parse_number, parse_identifier, parse_unary_op,
        parse_symbol, parse_token, parse_binary_op, binary_op_kind,
        ParseState.peek, ParseState.advance, List.get?]
    | StringLiteral value =>
      simp [parse_numeric_for, parse_numeric_for_step, parse_expression,
        parse_value, parse_number, parse_identifier, parse_unary_op,
        parse_symbol, parse_token, parse_binary_op, binary_op_kind,
        ParseState.peek, ParseState.advance, List.get?]
    | BoolLiteral bl =>
      simp [parse_numeric_for, parse_numeric_for_step, parse_expression,
        parse_value, parse_number, parse_identifier, parse_unary_op,
        parse_symbol, parse_token, parse_binary_op, binary_op_kind,
        ParseState.peek, ParseState.advance, List.get?]
    | NilLiteral =>
      simp [parse_numeric_for, parse_numeric_for_step, parse_expression,
        parse_value, parse_number, parse_identifier, parse_unary_op,
        parse_symbol, parse_token, parse_binary_op, binary_op_kind,
        ParseState.peek, ParseState.advance, List.get?]

theorem c9_numeric_for_step_cases_witness :
    parse_numeric_for (0 + 8) ⟨[⟨.Symbol .For, [], 1, 1⟩,
      ⟨.Identifier "i".data, [], 1, 1⟩, ⟨.Symbol .Equal, [], 1, 1⟩,
      ⟨.NumberLiteral "1".data, [], 1, 1⟩, ⟨.Symbol .Comma, [], 1, 1⟩,
      ⟨.NumberLiteral "10".data, [], 1, 1⟩, ⟨.Symbol .Do, [], 1, 1⟩,
      ⟨.Symbol .End, [], 1, 1⟩], 0⟩ =
    .ok (⟨[⟨.Symbol .For, [], 1, 1⟩,
      ⟨.Identifier "i".data, [], 1, 1⟩, ⟨.Symbol .Equal, [], 1, 1⟩,
      ⟨.NumberLiteral "1".data, [], 1, 1⟩, ⟨.Symbol .Comma, [], 1, 1⟩,
      ⟨.NumberLiteral "10".data, [], 1, 1⟩, ⟨.Symbol .Do, [], 1, 1⟩,
      ⟨.Symbol .End, [], 1, 1⟩], 8⟩,
      .mk "i".data (.Number "1".data) (.Number "10".data) none (.mk [])) ∧
    parse_numeric_for (0 + 8) ⟨⟨.Symbol .For, [], 1, 1⟩ ::
      ⟨.Identifier "i".data, [], 1, 1⟩ :: ⟨.Symbol .Equal, [], 1, 1⟩ ::
      ⟨.NumberLiteral "1".data, [], 1, 1⟩ :: ⟨.Symbol .Comma, [], 1, 1⟩ ::
      ⟨.NumberLiteral "10".data, [], 1, 1⟩ ::
      ⟨.Symbol .End, [], 1, 1⟩ :: [], 0⟩ = .error .NoMatch :=
  ⟨c9_numeric_for_step_cases.2.1 0 "i".data "1".data "10".data,
   c9_numeric_for_step_cases.2.2 0 "i".data "1".data "10".data
     (.Symbol .End) [] 1 1 [] (by decide) (by decide) (by decide)⟩

end LuaParser
